import Mathlib

/-!
Shallow embedding of the NDI output plugin core (src/obs-ndi-output.cpp):
the I444-to-UYVY pixel converter, the output-instance lifecycle
(create / update / start / stop) and the per-frame raw video / raw audio
callbacks, together with the vendor (NDI SDK) calls they issue.

Machine integers of the source (uint32_t, size_t, int) are modelled as
Nat / Int; none of the verified claims exercises wrap-around.  Byte
buffers are modelled as lists of byte values (List Nat); the pixel
converter is modelled as the ordered list of byte stores it performs,
each store being a pair (absolute output byte offset, stored value).
The C double "video_framerate" is modelled as an exact rational; the C
cast "(int)" is truncation toward zero.
-/

/-! ### Model definitions -/

/-- NDI_LIB_FOURCC: pack four ASCII codes into a little-endian 32-bit tag. -/
def mkFourCC (c0 c1 c2 c3 : Nat) : Nat :=
  c0 + c1 * 256 + c2 * 65536 + c3 * 16777216

/-- NDIlib_FourCC_video_type_UYVY (also NDIlib_FourCC_type_UYVY). -/
def fourCC_UYVY : Nat := mkFourCC 85 89 86 89

/-- NDIlib_FourCC_video_type_NV12. -/
def fourCC_NV12 : Nat := mkFourCC 78 86 49 50

/-- NDIlib_FourCC_video_type_I420. -/
def fourCC_I420 : Nat := mkFourCC 73 52 50 48

/-- NDIlib_FourCC_video_type_RGBA. -/
def fourCC_RGBA : Nat := mkFourCC 82 71 66 65

/-- NDIlib_FourCC_video_type_BGRA. -/
def fourCC_BGRA : Nat := mkFourCC 66 71 82 65

/-- NDIlib_FourCC_video_type_BGRX. -/
def fourCC_BGRX : Nat := mkFourCC 66 71 82 88

/-- NDIlib_FourCC_audio_type_FLTP ('F','L','T','p'). -/
def fourCC_FLTp : Nat := mkFourCC 70 76 84 112

/-- NDIlib_send_timecode_synthesize (INT64_MAX). -/
def NDI_send_timecode_synthesize : Int := 9223372036854775807

/-- NDIlib_frame_format_type_progressive. -/
def NDI_frame_format_type_progressive : Nat := 1

/-- min_uint32 from the source. -/
def min_uint32 (a b : Nat) : Nat := if a < b then a else b

/-- convert_i444_to_uyvy from the source, as the ordered list of byte stores
(absolute output byte offset, stored byte).  The three input planes are byte
functions (offset from the plane base pointer, as indexed off input[0..2]).
The C loop "for (x = 0; x < width; x += 2)" runs exactly the iterations
p = 0, 1, ..., (width+1)/2 - 1 with x = 2*p; at iteration p the running
pointers _Y, _U, _V sit at (row base + 2*p) of their planes (each advances
by 2 per iteration) and _out sits at (row base + 4*p) (it advances by 4),
and the body performs, in order, the four stores
  *out++ = *U, out++ = *Y, *out++ = *V, *out++ = *(Y+1). -/
def convert_i444_to_uyvy (input : Fin 3 → Nat → Nat) (in_linesize : Fin 3 → Nat)
    (start_y end_y : Nat) (out_linesize : Nat) : List (Nat × Nat) :=
  let width := min_uint32 (in_linesize 0) out_linesize
  (List.range' start_y (end_y - start_y)).flatMap (fun y =>
    (List.range ((width + 1) / 2)).flatMap (fun p =>
      [(y * out_linesize + 4 * p,     input 1 (y * in_linesize 1 + 2 * p)),
       (y * out_linesize + 4 * p + 1, input 0 (y * in_linesize 0 + 2 * p)),
       (y * out_linesize + 4 * p + 2, input 2 (y * in_linesize 2 + 2 * p)),
       (y * out_linesize + 4 * p + 3, input 0 (y * in_linesize 0 + 2 * p + 1))]))

/-- Replay a list of byte stores in program order over an initially
undefined output buffer: the byte at offset a is the value of the last
store to a, if any. -/
def applyWrites (ws : List (Nat × Nat)) : Nat → Option Nat :=
  ws.foldl (fun buf wv => fun a => if a = wv.1 then some wv.2 else buf a)
    (fun _ => none)

/-- The C cast (int) on a double value: truncation toward zero. -/
def c_int_trunc (q : ℚ) : ℤ := if 0 ≤ q then ⌊q⌋ else ⌈q⌉

/-- Host pixel formats that reach ndi_output_start's switch;
"unsupported" stands for every format outside the mapping table
(the switch's default case). -/
inductive VideoFormat
  | I444
  | NV12
  | I420
  | RGBA
  | BGRA
  | BGRX
  | unsupported
deriving DecidableEq

/-- Tag for the p_data pointer stored in a vendor video descriptor:
either the instance's conversion scratch buffer or plane 0 of the
host-provided frame. -/
inductive DataPtr
  | convBuffer
  | framePlane0
deriving DecidableEq

/-- NDIlib_video_frame_v2_t fields filled by ndi_output_rawvideo. -/
structure VideoFrameDesc where
  xres : Nat
  yres : Nat
  frame_rate_N : Int
  frame_rate_D : Int
  frame_format_type : Nat
  timecode : Int
  fourCC : Nat
  p_data : DataPtr
  line_stride_in_bytes : Nat
deriving DecidableEq

/-- NDIlib_audio_frame_v3_t fields filled by ndi_output_rawaudio.
p_data carries the bytes of the repacked scratch buffer. -/
structure AudioFrameDesc where
  sample_rate : Nat
  no_channels : Nat
  timecode : Int
  no_samples : Nat
  channel_stride_in_bytes : Nat
  fourCC : Nat
  p_data : List Nat
deriving DecidableEq

/-- Calls the core issues into the vendor (NDI) SDK. -/
inductive VendorCall
  | sendCreate (ndi_name : String)
  | sendDestroy
  | sendVideo (frame : VideoFrameDesc)
  | sendAudio (frame : AudioFrameDesc)
deriving DecidableEq

/-- struct ndi_output.  The conversion scratch pointer conv_buffer is
modelled as an Option carrying the allocation's byte size; the audio
scratch is modelled by its bytes (audio_conv_buffer, empty list = null)
and its recorded capacity (audio_conv_buffer_size). -/
structure NdiOutput where
  ndi_name : String
  uses_video : Bool
  uses_audio : Bool
  started : Bool
  ndi_sender : Bool
  frame_width : Nat
  frame_height : Nat
  frame_fourcc : Nat
  video_framerate : ℚ
  audio_channels : Nat
  audio_samplerate : Nat
  conv_buffer : Option Nat
  conv_linesize : Nat
  conv_function : Bool
  audio_conv_buffer : List Nat
  audio_conv_buffer_size : Nat
deriving DecidableEq

/-- The settings keys the output reads (obs_data_get_string /
obs_data_get_bool results, defaults already applied). -/
structure Settings where
  ndi_name : String
  uses_video : Bool
  uses_audio : Bool

/-- What obs_output_video's handle answers in ndi_output_start. -/
structure VideoInfo where
  format : VideoFormat
  width : Nat
  height : Nat
  framerate : ℚ
deriving DecidableEq

/-- What obs_output_audio's handle answers in ndi_output_start. -/
structure AudioInfo where
  sample_rate : Nat
  channels : Nat
deriving DecidableEq

/-- Host-side environment of one ndi_output_start call: the optional
video and audio handles (None models a null obs handle), whether
ndiLib->send_create succeeds, and what obs_output_begin_data_capture
returns. -/
structure HostEnv where
  video : Option VideoInfo
  audio : Option AudioInfo
  send_create_ok : Bool
  begin_capture_ok : Bool

/-- struct video_data fields read by ndi_output_rawvideo
(frame->timestamp and frame->linesize[0]; the plane pointers are
abstracted by the DataPtr tag). -/
structure VideoData where
  timestamp : Nat
  linesize0 : Nat

/-- struct audio_data fields read by ndi_output_rawaudio: frame count
and the per-channel planar byte buffers frame->data[i]. -/
structure AudioData where
  frames : Nat
  data : Nat → List Nat

/-- ndi_output_update: refresh name and feature flags from settings. -/
def ndi_output_update (o : NdiOutput) (settings : Settings) : NdiOutput :=
  { o with ndi_name := settings.ndi_name,
           uses_video := settings.uses_video,
           uses_audio := settings.uses_audio }

/-- The bzalloc-ed instance of ndi_output_create before update runs:
every field zero / null / false. -/
def zeroNdiOutput : NdiOutput :=
  { ndi_name := "", uses_video := false, uses_audio := false,
    started := false, ndi_sender := false,
    frame_width := 0, frame_height := 0, frame_fourcc := 0,
    video_framerate := 0, audio_channels := 0, audio_samplerate := 0,
    conv_buffer := none, conv_linesize := 0, conv_function := false,
    audio_conv_buffer := [], audio_conv_buffer_size := 0 }

/-- ndi_output_create: zero-init (bzalloc), explicit null audio scratch,
then apply ndi_output_update on the given settings. -/
def ndi_output_create (settings : Settings) : NdiOutput :=
  ndi_output_update zeroNdiOutput settings

/-- ndi_output_start.  Returns (start result, state after, vendor calls
issued).  Follows the source: reject when already started; reject when
both host handles are null; map the video format (failing on the switch
default); record negotiated video and audio state; call send_create
unconditionally after that; flip started only when the sender was
created and data capture began. -/
def ndi_output_start (o : NdiOutput) (env : HostEnv) :
    Bool × NdiOutput × List VendorCall :=
  if o.started then (false, o, [])
  else if env.video = none ∧ env.audio = none then (false, o, [])
  else
    let videoRes : Option NdiOutput :=
      match env.video, o.uses_video with
      | some v, true =>
        match v.format with
        | VideoFormat.I444 => some { o with
            conv_function := true,
            frame_fourcc := fourCC_UYVY,
            conv_linesize := v.width * 2,
            conv_buffer := some (v.height * (v.width * 2) * 2),
            frame_width := v.width,
            frame_height := v.height,
            video_framerate := v.framerate }
        | VideoFormat.NV12 => some { o with
            frame_fourcc := fourCC_NV12,
            frame_width := v.width,
            frame_height := v.height,
            video_framerate := v.framerate }
        | VideoFormat.I420 => some { o with
            frame_fourcc := fourCC_I420,
            frame_width := v.width,
            frame_height := v.height,
            video_framerate := v.framerate }
        | VideoFormat.RGBA => some { o with
            frame_fourcc := fourCC_RGBA,
            frame_width := v.width,
            frame_height := v.height,
            video_framerate := v.framerate }
        | VideoFormat.BGRA => some { o with
            frame_fourcc := fourCC_BGRA,
            frame_width := v.width,
            frame_height := v.height,
            video_framerate := v.framerate }
        | VideoFormat.BGRX => some { o with
            frame_fourcc := fourCC_BGRX,
            frame_width := v.width,
            frame_height := v.height,
            video_framerate := v.framerate }
        | VideoFormat.unsupported => none
      | _, _ => some o
    match videoRes with
    | none => (false, o, [])
    | some o1 =>
      let o2 : NdiOutput :=
        match env.audio, o1.uses_audio with
        | some a, true => { o1 with
            audio_samplerate := a.sample_rate,
            audio_channels := a.channels }
        | _, _ => o1
      let o3 : NdiOutput := { o2 with ndi_sender := env.send_create_ok }
      let o4 : NdiOutput :=
        if o3.ndi_sender then { o3 with started := env.begin_capture_ok }
        else o3
      (o4.started, o4, [VendorCall.sendCreate o.ndi_name])

/-- ndi_output_stop.  Returns (state after, vendor calls issued). -/
def ndi_output_stop (o : NdiOutput) : NdiOutput × List VendorCall :=
  if o.started = false then (o, [])
  else
    let calls := if o.ndi_sender then [VendorCall.sendDestroy] else []
    let o1 : NdiOutput := { o with started := false, ndi_sender := false }
    let o2 : NdiOutput :=
      if o1.conv_buffer.isSome then
        { o1 with conv_buffer := none, conv_function := false }
      else o1
    ({ o2 with frame_width := 0, frame_height := 0, video_framerate := 0,
               audio_channels := 0, audio_samplerate := 0 }, calls)

/-- ndi_output_rawvideo.  Returns (state after, vendor calls issued). -/
def ndi_output_rawvideo (o : NdiOutput) (frame : VideoData) :
    NdiOutput × List VendorCall :=
  if o.started = false ∨ o.frame_width = 0 ∨ o.frame_height = 0 then (o, [])
  else
    let base : VideoFrameDesc :=
      { xres := o.frame_width,
        yres := o.frame_height,
        frame_rate_N := c_int_trunc (o.video_framerate * 100),
        frame_rate_D := 100,
        frame_format_type := NDI_frame_format_type_progressive,
        timecode := (frame.timestamp / 100 : Nat),
        fourCC := o.frame_fourcc,
        p_data := DataPtr.framePlane0,
        line_stride_in_bytes := frame.linesize0 }
    let vf : VideoFrameDesc :=
      if base.fourCC = fourCC_UYVY then
        { base with p_data := DataPtr.convBuffer,
                    line_stride_in_bytes := o.conv_linesize }
      else base
    (o, [VendorCall.sendVideo vf])

/-- memcpy(buf + dst, src, src.length) over a byte-list buffer: splice
src over the range [dst, dst + src.length) of buf. -/
def writeRange (buf : List Nat) (dst : Nat) (src : List Nat) : List Nat :=
  buf.take dst ++ src ++ buf.drop (dst + src.length)

/-- ndi_output_rawaudio.  Returns (state after, vendor calls issued).
The grow-only scratch reallocation (bfree + bmalloc when the required
size exceeds the recorded capacity) is followed by the per-channel
memcpy repack; the bytes of a fresh bmalloc allocation are modelled as
zeroes (the repack overwrites all of them). -/
def ndi_output_rawaudio (o : NdiOutput) (frame : AudioData) :
    NdiOutput × List VendorCall :=
  if o.started = false ∨ o.audio_samplerate = 0 ∨ o.audio_channels = 0 then
    (o, [])
  else
    let no_channels := o.audio_channels
    let channel_stride_in_bytes := frame.frames * 4
    let data_size := no_channels * channel_stride_in_bytes
    let o1 : NdiOutput :=
      if data_size > o.audio_conv_buffer_size then
        { o with audio_conv_buffer := List.replicate data_size 0,
                 audio_conv_buffer_size := data_size }
      else o
    let buf := (List.range no_channels).foldl
      (fun b i => writeRange b (i * channel_stride_in_bytes)
        ((frame.data i).take channel_stride_in_bytes))
      o1.audio_conv_buffer
    let o2 : NdiOutput := { o1 with audio_conv_buffer := buf }
    let af : AudioFrameDesc :=
      { sample_rate := o.audio_samplerate,
        no_channels := no_channels,
        timecode := NDI_send_timecode_synthesize,
        no_samples := frame.frames,
        channel_stride_in_bytes := channel_stride_in_bytes,
        fourCC := fourCC_FLTp,
        p_data := buf }
    (o2, [VendorCall.sendAudio af])

/-- Deliver a sequence of raw audio frames to an instance, keeping the
state thread. -/
def processAudio (o : NdiOutput) (fs : List AudioData) : NdiOutput :=
  fs.foldl (fun s f => (ndi_output_rawaudio s f).1) o

/-- Settings with both feature flags off, as used in the C3 counterexample. -/
def settingsNoFlags : Settings := ⟨"flagless", false, false⟩

/-- Host environment in which a video handle is present (NV12 1920x1080)
but no audio handle, sender creation succeeds and data capture starts. -/
def envVideoOnly : HostEnv :=
  ⟨some ⟨VideoFormat.NV12, 1920, 1080, 30⟩, none, true, true⟩

/-- Host environment offering I444 4x2 video at 30 fps and 48 kHz stereo
audio, with sender creation and capture start succeeding. -/
def envI444Stereo : HostEnv :=
  ⟨some ⟨VideoFormat.I444, 4, 2, 30⟩, some ⟨48000, 2⟩, true, true⟩

/-- A running instance obtained by creating with default-like settings
and starting against envI444Stereo. -/
def runningI444 : NdiOutput :=
  (ndi_output_start (ndi_output_create ⟨"cam", true, true⟩) envI444Stereo).2.1

/-- Extract the frame rate numerator of a single sent video frame. -/
def sentVideoRateN (calls : List VendorCall) : Option Int :=
  match calls with
  | [VendorCall.sendVideo vf] => some vf.frame_rate_N
  | _ => none

/-- A running instance whose negotiated framerate is 1/64 fps (the host
frame rate is a double; 1/64 is exactly representable, so the C
computation (int)(framerate * 100) and this exact-rational model agree
on it). -/
def runningLowFps : NdiOutput :=
  (ndi_output_start (ndi_output_create ⟨"slow", true, true⟩)
    ⟨some ⟨VideoFormat.NV12, 2, 2, (1 : ℚ)/64⟩, none, true, true⟩).2.1

/-- All-zero input planes. -/
def inputZero : Fin 3 → Nat → Nat := fun _ _ => 0

/-- All three input strides equal to 5. -/
def strides5 : Fin 3 → Nat := fun _ => 5

/-- All three input strides equal to 4 (scenario S1). -/
def s1Strides : Fin 3 → Nat := fun _ => 4

/-- Scenario S1's 4x2 planar 4:4:4 input: plane bytes laid out row-major
with stride 4 (plane 0 = Y, plane 1 = U, plane 2 = V). -/
def s1Input : Fin 3 → Nat → Nat := fun j i =>
  if j = 0 then [10, 20, 30, 40, 50, 60, 70, 80].getD i 0
  else if j = 1 then [1, 2, 3, 4, 5, 6, 7, 8].getD i 0
  else [100, 101, 102, 103, 104, 105, 106, 107].getD i 0

/-- Scenario S1's expected packed UYVY output (two 8-byte rows). -/
def s1Expected : List Nat :=
  [1, 10, 100, 20, 3, 30, 102, 40, 5, 50, 104, 60, 7, 70, 106, 80]

/-- The input planes of the C9 counterexample pair: all zero except that
the SECOND input disagrees at luma (plane 0) offset 5, which lies at the
effective width 5 = min(5,5), i.e. outside [0, width). -/
def inputLumaAt5 : Fin 3 → Nat → Nat := fun j i =>
  if j = 0 ∧ i = 5 then 7 else 0

/-- The three audio frames of scenario S4 shrunk to kernel-friendly
sizes (stereo, frame counts 4, 2, 8: required sizes 32, 16, 64). -/
def s4Frames : List AudioData :=
  [⟨4, fun _ => List.replicate 16 0⟩,
   ⟨2, fun _ => List.replicate 8 0⟩,
   ⟨8, fun _ => List.replicate 32 0⟩]

/-- A stereo frame with two distinguishable 8-byte channel buffers. -/
def stereoFrame : AudioData :=
  ⟨2, fun j => if j = 0 then [1, 2, 3, 4, 5, 6, 7, 8]
       else [11, 12, 13, 14, 15, 16, 17, 18]⟩

def startedAudioOnly : NdiOutput :=
  { zeroNdiOutput with started := true, ndi_sender := true,
                       audio_samplerate := 48000, audio_channels := 2 }

/-! ### Supporting lemmas -/

lemma flatMap_split {α β : Type} (f : α → List β) :
    ∀ (L : List α) (a : α), a ∈ L → ∃ l1 l2, L.flatMap f = l1 ++ f a ++ l2
  | [], a, h => absurd h (List.not_mem_nil a)
  | b :: L, a, h => by
      rcases List.mem_cons.mp h with rfl | h2
      · exact ⟨[], L.flatMap f, by simp⟩
      · obtain ⟨l1, l2, hsplit⟩ := flatMap_split f L a h2
        exact ⟨f b ++ l1, l2, by simp [hsplit]⟩

lemma flatMap_const_length {α β : Type} (f : α → List β) (k : Nat)
    (h : ∀ a, (f a).length = k) :
    ∀ L : List α, (L.flatMap f).length = L.length * k
  | [] => by simp
  | a :: L => by
      rw [List.flatMap_cons, List.length_append, h a,
        flatMap_const_length f k h L, List.length_cons]
      ring

/-- The loop body of one converter iteration (row y, iteration p with
x = 2*p) appears, in order, inside the converter's store list. -/
lemma convert_pair_split (input : Fin 3 → Nat → Nat) (ls : Fin 3 → Nat)
    (start_y end_y out y p : Nat) (hy1 : start_y ≤ y) (hy2 : y < end_y)
    (hp : 2 * p < min_uint32 (ls 0) out) :
    ∃ l1 l2, convert_i444_to_uyvy input ls start_y end_y out =
      l1 ++ [(y * out + 4 * p,     input 1 (y * ls 1 + 2 * p)),
             (y * out + 4 * p + 1, input 0 (y * ls 0 + 2 * p)),
             (y * out + 4 * p + 2, input 2 (y * ls 2 + 2 * p)),
             (y * out + 4 * p + 3, input 0 (y * ls 0 + 2 * p + 1))] ++ l2 := by
  unfold convert_i444_to_uyvy
  dsimp only
  have hy : y ∈ List.range' start_y (end_y - start_y) := by
    rw [List.mem_range'_1]; omega
  have hpmem : p ∈ List.range ((min_uint32 (ls 0) out + 1) / 2) := by
    rw [List.mem_range]; omega
  obtain ⟨L1, L2, h1⟩ := flatMap_split _ _ y hy
  obtain ⟨m1, m2, h2⟩ := flatMap_split _ _ p hpmem
  rw [h1, h2]
  exact ⟨L1 ++ m1, m2 ++ L2, by simp⟩

/-- Number of stores one converter row performs: four bytes per loop
iteration, (width+1)/2 iterations (width rounded UP to a pair count). -/
lemma convert_row_length (input : Fin 3 → Nat → Nat) (ls : Fin 3 → Nat)
    (out y : Nat) :
    (convert_i444_to_uyvy input ls y (y + 1) out).length
      = 4 * ((min_uint32 (ls 0) out + 1) / 2) := by
  unfold convert_i444_to_uyvy
  dsimp only
  rw [show y + 1 - y = 1 from by omega]
  rw [List.range'_one, List.flatMap_cons, List.flatMap_nil, List.append_nil]
  rw [flatMap_const_length
      (fun p => [(y * out + 4 * p,     input 1 (y * ls 1 + 2 * p)),
                 (y * out + 4 * p + 1, input 0 (y * ls 0 + 2 * p)),
                 (y * out + 4 * p + 2, input 2 (y * ls 2 + 2 * p)),
                 (y * out + 4 * p + 3, input 0 (y * ls 0 + 2 * p + 1))])
      4 (fun a => rfl), List.length_range]
  ring

lemma writeRange_length (buf src : List Nat) (dst : Nat)
    (h : dst + src.length ≤ buf.length) :
    (writeRange buf dst src).length = buf.length := by
  unfold writeRange
  rw [List.length_append, List.length_append, List.length_take, List.length_drop]
  omega

lemma writeRange_take (buf p : List Nat) (a s : Nat)
    (hp : p.length = s) (hb : a * s + s ≤ buf.length) :
    (writeRange buf (a * s) p).take (a * s + s) = buf.take (a * s) ++ p := by
  unfold writeRange
  have hx : (buf.take (a * s)).length = a * s := by
    rw [List.length_take]; omega
  rw [List.append_assoc, List.take_append_eq_append_take, hx, List.take_take]
  rw [Nat.min_eq_right (by omega : a * s ≤ a * s + s)]
  rw [show a * s + s - a * s = s from by omega]
  rw [List.take_append_eq_append_take, hp]
  rw [show s - s = 0 from by omega, List.take_zero, List.append_nil]
  rw [List.take_of_length_le (le_of_eq hp)]

lemma writeRange_drop (buf p : List Nat) (a s n : Nat)
    (hp : p.length = s) (hb : a * s + s ≤ buf.length) (hn : a * s + s ≤ n) :
    (writeRange buf (a * s) p).drop n = buf.drop n := by
  unfold writeRange
  have hx : (buf.take (a * s)).length = a * s := by
    rw [List.length_take]; omega
  rw [List.append_assoc, List.drop_append_eq_append_drop]
  rw [List.drop_eq_nil_of_le (by omega : (buf.take (a * s)).length ≤ n)]
  rw [List.nil_append, List.drop_append_eq_append_drop]
  rw [List.drop_eq_nil_of_le (by rw [hp, hx]; omega : p.length ≤ n - (buf.take (a * s)).length)]
  rw [List.nil_append, hp, List.drop_drop, hx]
  congr 1
  omega

/-- The per-channel memcpy loop of ndi_output_rawaudio, run over channel
indices [a, a+m), splices the channel pieces, in channel order, over the
byte range [a*s, (a+m)*s) of the buffer, and leaves the rest intact. -/
lemma fold_writeRange_join (src : Nat → List Nat) (s : Nat) :
    ∀ (m a : Nat) (buf : List Nat),
      (a + m) * s ≤ buf.length →
      (∀ j, a ≤ j → j < a + m → ((src j).take s).length = s) →
      (List.range' a m).foldl
          (fun b i => writeRange b (i * s) ((src i).take s)) buf
        = buf.take (a * s)
          ++ ((List.range' a m).map (fun j => (src j).take s)).flatten
          ++ buf.drop ((a + m) * s)
  | 0, a, buf, _, _ => by
      simp [List.take_append_drop]
  | (m+1), a, buf, hb, hs => by
      rw [List.range'_succ, List.foldl_cons, List.map_cons, List.flatten_cons]
      have hps : ((src a).take s).length = s := hs a (le_refl a) (by omega)
      have hb1 : a * s + s ≤ buf.length := by
        have h1 : (a + 1) * s ≤ (a + (m + 1)) * s := Nat.mul_le_mul_right s (by omega)
        have h2 : (a + 1) * s = a * s + s := by ring
        omega
      have hWlen : (writeRange buf (a * s) ((src a).take s)).length = buf.length := by
        rw [writeRange_length buf _ (a * s) (by rw [hps]; omega)]
      rw [fold_writeRange_join src s m (a + 1)
            (writeRange buf (a * s) ((src a).take s))
            (by rw [hWlen, show (a + 1 + m) * s = (a + (m + 1)) * s from by ring]; exact hb)
            (fun j hj1 hj2 => hs j (by omega) (by omega))]
      rw [show (a + 1) * s = a * s + s from by ring]
      rw [writeRange_take buf _ a s hps hb1]
      rw [writeRange_drop buf _ a s ((a + 1 + m) * s) hps hb1
            (by rw [show (a + 1 + m) * s = a * s + s + m * s from by ring]; omega)]
      rw [show (a + 1 + m) * s = (a + (m + 1)) * s from by ring]
      simp

/-- The memcpy loop never changes the buffer's length (allocation size)
when all targeted regions fit. -/
lemma fold_writeRange_length (src : Nat → List Nat) (s : Nat) :
    ∀ (m a : Nat) (buf : List Nat),
      (a + m) * s ≤ buf.length →
      ((List.range' a m).foldl
          (fun b i => writeRange b (i * s) ((src i).take s)) buf).length
        = buf.length
  | 0, _, _, _ => rfl
  | (m+1), a, buf, hb => by
      rw [List.range'_succ, List.foldl_cons]
      have hb1 : a * s + ((src a).take s).length ≤ buf.length := by
        have hlp : ((src a).take s).length ≤ s := by
          rw [List.length_take]; omega
        have h1 : (a + 1) * s ≤ (a + (m + 1)) * s := Nat.mul_le_mul_right s (by omega)
        have h2 : (a + 1) * s = a * s + s := by ring
        omega
      have hW := writeRange_length buf ((src a).take s) (a * s) hb1
      rw [fold_writeRange_length src s m (a + 1) _
            (by rw [hW, show (a + 1 + m) * s = (a + (m + 1)) * s from by ring]; exact hb),
          hW]

/-- Reading region i of a concatenation of equal-stride pieces (with any
suffix behind it) yields piece i. -/
lemma flatten_region (s : Nat) :
    ∀ (L : List (List Nat)) (suffix : List Nat) (i : Nat) (hi : i < L.length),
      (∀ l ∈ L, l.length = s) →
      ((L.flatten ++ suffix).drop (i * s)).take s = L.get ⟨i, hi⟩
  | [], _, i, hi, _ => absurd hi (by simp)
  | l :: L, suffix, 0, _, hl => by
      rw [List.flatten_cons, List.append_assoc, Nat.zero_mul, List.drop_zero]
      exact List.take_left' (hl l (List.mem_cons_self l L))
  | l :: L, suffix, (i+1), hi, hl => by
      rw [List.flatten_cons, List.append_assoc, List.drop_append_eq_append_drop]
      have hll : l.length = s := hl l (List.mem_cons_self l L)
      rw [List.drop_eq_nil_of_le (by rw [hll]; nlinarith : l.length ≤ (i + 1) * s)]
      rw [List.nil_append, hll]
      rw [show (i + 1) * s - s = i * s from by ring_nf; omega]
      exact flatten_region s L suffix i (by simpa using hi)
        (fun x hx => hl x (List.mem_cons_of_mem l hx))

lemma rawaudio_fields (o : NdiOutput) (f : AudioData) :
    ((ndi_output_rawaudio o f).1).started = o.started ∧
    ((ndi_output_rawaudio o f).1).audio_samplerate = o.audio_samplerate ∧
    ((ndi_output_rawaudio o f).1).audio_channels = o.audio_channels := by
  unfold ndi_output_rawaudio
  split
  · exact ⟨rfl, rfl, rfl⟩
  · dsimp only
    split
    · exact ⟨rfl, rfl, rfl⟩
    · exact ⟨rfl, rfl, rfl⟩

lemma rawaudio_cap (o : NdiOutput) (f : AudioData)
    (hs : o.started = true) (hr : o.audio_samplerate ≠ 0)
    (hc : o.audio_channels ≠ 0) :
    ((ndi_output_rawaudio o f).1).audio_conv_buffer_size
      = max o.audio_conv_buffer_size (o.audio_channels * (f.frames * 4)) := by
  unfold ndi_output_rawaudio
  rw [if_neg (by simp [hs, hr, hc])]
  dsimp only
  split
  · next h =>
      show o.audio_channels * (f.frames * 4)
        = max o.audio_conv_buffer_size (o.audio_channels * (f.frames * 4))
      omega
  · next h =>
      show o.audio_conv_buffer_size
        = max o.audio_conv_buffer_size (o.audio_channels * (f.frames * 4))
      omega

lemma rawaudio_len (o : NdiOutput) (f : AudioData)
    (hl : o.audio_conv_buffer.length = o.audio_conv_buffer_size) :
    ((ndi_output_rawaudio o f).1).audio_conv_buffer.length
      = ((ndi_output_rawaudio o f).1).audio_conv_buffer_size := by
  unfold ndi_output_rawaudio
  split
  · exact hl
  · dsimp only
    split
    · next h =>
        show ((List.range o.audio_channels).foldl
            (fun b i => writeRange b (i * (f.frames * 4))
              ((f.data i).take (f.frames * 4)))
            (List.replicate (o.audio_channels * (f.frames * 4)) 0)).length
          = o.audio_channels * (f.frames * 4)
        rw [List.range_eq_range',
          fold_writeRange_length f.data (f.frames * 4) o.audio_channels 0 _
            (by rw [List.length_replicate]; exact le_of_eq (by ring))]
        exact List.length_replicate _ _
    · next h =>
        show ((List.range o.audio_channels).foldl
            (fun b i => writeRange b (i * (f.frames * 4))
              ((f.data i).take (f.frames * 4)))
            o.audio_conv_buffer).length = o.audio_conv_buffer_size
        rw [List.range_eq_range',
          fold_writeRange_length f.data (f.frames * 4) o.audio_channels 0 _
            (by
              rw [hl, show (0 + o.audio_channels) * (f.frames * 4)
                  = o.audio_channels * (f.frames * 4) from by ring]
              omega)]
        exact hl

lemma processAudio_nil (o : NdiOutput) : processAudio o [] = o := rfl

lemma processAudio_cons (o : NdiOutput) (f : AudioData) (fs : List AudioData) :
    processAudio o (f :: fs) = processAudio ((ndi_output_rawaudio o f).1) fs := rfl

lemma processAudio_inv (fs : List AudioData) : ∀ (o : NdiOutput),
    (processAudio o fs).started = o.started ∧
    (processAudio o fs).audio_samplerate = o.audio_samplerate ∧
    (processAudio o fs).audio_channels = o.audio_channels := by
  induction fs with
  | nil => exact fun o => ⟨rfl, rfl, rfl⟩
  | cons f fs ih =>
      intro o
      have h1 := rawaudio_fields o f
      have h2 := ih ((ndi_output_rawaudio o f).1)
      rw [processAudio_cons]
      exact ⟨h2.1.trans h1.1, h2.2.1.trans h1.2.1, h2.2.2.trans h1.2.2⟩

lemma processAudio_cap (fs : List AudioData) : ∀ (o : NdiOutput),
    o.started = true → o.audio_samplerate ≠ 0 → o.audio_channels ≠ 0 →
    (processAudio o fs).audio_conv_buffer_size
      = (fs.map (fun g => o.audio_channels * (g.frames * 4))).foldl max
          o.audio_conv_buffer_size := by
  induction fs with
  | nil => exact fun o _ _ _ => rfl
  | cons f fs ih =>
      intro o hs hr hc
      have hf := rawaudio_fields o f
      rw [processAudio_cons, List.map_cons, List.foldl_cons,
        ih ((ndi_output_rawaudio o f).1) (hf.1.trans hs)
          (by rw [hf.2.1]; exact hr) (by rw [hf.2.2]; exact hc),
        hf.2.2, rawaudio_cap o f hs hr hc]

lemma processAudio_leninv (fs : List AudioData) : ∀ (o : NdiOutput),
    o.audio_conv_buffer.length = o.audio_conv_buffer_size →
    (processAudio o fs).audio_conv_buffer.length
      = (processAudio o fs).audio_conv_buffer_size := by
  induction fs with
  | nil => exact fun o h => h
  | cons f fs ih =>
      intro o h
      rw [processAudio_cons]
      exact ih ((ndi_output_rawaudio o f).1) (rawaudio_len o f h)

lemma le_foldl_max (L : List Nat) : ∀ init : Nat, init ≤ L.foldl max init := by
  induction L with
  | nil => exact fun _ => le_refl _
  | cons a L ih =>
      intro init
      rw [List.foldl_cons]
      exact le_trans (Nat.le_max_left init a) (ih (max init a))

lemma foldl_max_take_le (L : List Nat) : ∀ (j init : Nat),
    (L.take j).foldl max init ≤ L.foldl max init := by
  induction L with
  | nil => intro j init; rw [List.take_nil]
  | cons a L ih =>
      intro j init
      cases j with
      | zero =>
          rw [List.take_zero, List.foldl_nil, List.foldl_cons]
          exact le_trans (Nat.le_max_left init a) (le_foldl_max L (max init a))
      | succ j =>
          rw [List.take_succ_cons, List.foldl_cons, List.foldl_cons]
          exact ih j (max init a)

/-! ### The claims -/

/-- Claim C1 fails on the code: on a call with Y stride 5, output stride
5 and one row, the effective width is min(5,5) = 5 and the loop runs
ceil(5/2) = 3 full iterations, so the converter performs 12 byte stores
in the row — not 5 = min(in,out) bytes, nor 4 (the effective width
rounded DOWN to an even sample count), nor 8 (two output bytes per such
sample): the width is rounded UP.  Moreover it stores a byte at offset
11, which is at or beyond out_stride * height = 5 * 1 = 5. -/
theorem claim_C1_counterexample :
    (convert_i444_to_uyvy inputZero strides5 0 1 5).length = 12 ∧
    (11, 0) ∈ convert_i444_to_uyvy inputZero strides5 0 1 5 := by
  decide

/-- Claim C1 amended: per output row the converter performs exactly
4 * ceil(min(in_stride0, out_stride) / 2) byte stores — two bytes per
luma sample with the effective width rounded UP (not down) to an even
number of luma samples — and, provided that per-row store count does not
exceed the output stride (as in the intended invocation, where
out_stride = 2 * in_stride0), no store lands at or beyond
out_stride * height. -/
theorem claim_C1_amended (input : Fin 3 → Nat → Nat) (ls : Fin 3 → Nat)
    (out height y : Nat) (_hy : y < height)
    (hfit : 4 * ((min_uint32 (ls 0) out + 1) / 2) ≤ out) :
    (convert_i444_to_uyvy input ls y (y + 1) out).length
      = 4 * ((min_uint32 (ls 0) out + 1) / 2) ∧
    ∀ wv ∈ convert_i444_to_uyvy input ls 0 height out, wv.1 < out * height := by
  refine ⟨convert_row_length input ls out y, ?_⟩
  intro wv hmem
  unfold convert_i444_to_uyvy at hmem
  dsimp only at hmem
  rw [List.mem_flatMap] at hmem
  obtain ⟨y2, hy2, hin⟩ := hmem
  rw [List.mem_flatMap] at hin
  obtain ⟨p, hpmem, hblk⟩ := hin
  have hy3 : y2 < height := by
    have := List.mem_range'_1.mp hy2
    omega
  have hp3 : p < (min_uint32 (ls 0) out + 1) / 2 := List.mem_range.mp hpmem
  have h4 : 4 * p + 4 ≤ out := by omega
  have hcomm : height * out = out * height := Nat.mul_comm height out
  have hstep : y2 * out + out ≤ height * out := by
    have h5 : (y2 + 1) * out ≤ height * out :=
      Nat.mul_le_mul_right out (by omega)
    calc y2 * out + out = (y2 + 1) * out := by ring
      _ ≤ height * out := h5
  simp only [List.mem_cons, List.not_mem_nil, or_false] at hblk
  rcases hblk with h | h | h | h <;> subst h <;> dsimp <;> linarith

theorem claim_C1_amended_witness :
    (convert_i444_to_uyvy s1Input s1Strides 0 (0 + 1) 8).length
      = 4 * ((min_uint32 (s1Strides 0) 8 + 1) / 2) ∧
    ∀ wv ∈ convert_i444_to_uyvy s1Input s1Strides 0 2 8, wv.1 < 8 * 2 :=
  claim_C1_amended s1Input s1Strides 8 2 0 (by decide) (by decide)

/-- Claim C2: for every row y in [start_y, end_y) and every iteration
p (x = 2*p) whose pixel pair lies fully inside the effective width, the
converter emits, in order, the four bytes
(U[y][x], Y[y][x], V[y][x], Y[y][x+1]) at output offsets
y*out_stride + 4p .. +3 — the even-indexed chroma sample is kept, the
odd one discarded, no averaging.  On scenario S1 (strides 4, output
stride 8 = width*2 as the core invokes it) the replayed output buffer is
exactly rows [1,10,100,20, 3,30,102,40] and [5,50,104,60, 7,70,106,80]. -/
theorem claim_C2 (input : Fin 3 → Nat → Nat) (ls : Fin 3 → Nat)
    (start_y end_y out y p : Nat)
    (hy1 : start_y ≤ y) (hy2 : y < end_y)
    (hp : 2 * p + 1 < min_uint32 (ls 0) out) :
    (∃ l1 l2, convert_i444_to_uyvy input ls start_y end_y out =
      l1 ++ [(y * out + 4 * p,     input 1 (y * ls 1 + 2 * p)),
             (y * out + 4 * p + 1, input 0 (y * ls 0 + 2 * p)),
             (y * out + 4 * p + 2, input 2 (y * ls 2 + 2 * p)),
             (y * out + 4 * p + 3, input 0 (y * ls 0 + 2 * p + 1))] ++ l2) ∧
    (List.range 16).map (applyWrites (convert_i444_to_uyvy s1Input s1Strides 0 2 8))
      = s1Expected.map some := by
  constructor
  · exact convert_pair_split input ls start_y end_y out y p hy1 hy2 (by omega)
  · decide

theorem claim_C2_witness :
    (∃ l1 l2, convert_i444_to_uyvy s1Input s1Strides 0 2 8 =
      l1 ++ [(0 * 8 + 4 * 0,     s1Input 1 (0 * s1Strides 1 + 2 * 0)),
             (0 * 8 + 4 * 0 + 1, s1Input 0 (0 * s1Strides 0 + 2 * 0)),
             (0 * 8 + 4 * 0 + 2, s1Input 2 (0 * s1Strides 2 + 2 * 0)),
             (0 * 8 + 4 * 0 + 3, s1Input 0 (0 * s1Strides 0 + 2 * 0 + 1))] ++ l2) ∧
    (List.range 16).map (applyWrites (convert_i444_to_uyvy s1Input s1Strides 0 2 8))
      = s1Expected.map some :=
  claim_C2 s1Input s1Strides 0 2 8 0 0 (by decide) (by decide) (by decide)

/-- Claim C3 fails on the code: the rejection check is only
"no video handle AND no audio handle" and never consults the uses_video /
uses_audio flags.  An instance with uses_video = uses_audio = false but a
video handle present passes the check: start issues send_create (and here
even returns true). -/
theorem claim_C3_counterexample :
    (ndi_output_create settingsNoFlags).uses_video = false ∧
    (ndi_output_create settingsNoFlags).uses_audio = false ∧
    (ndi_output_start (ndi_output_create settingsNoFlags) envVideoOnly).2.2
      = [VendorCall.sendCreate "flagless"] ∧
    (ndi_output_start (ndi_output_create settingsNoFlags) envVideoOnly).1 = true := by
  refine ⟨rfl, rfl, rfl, rfl⟩

/-- Claim C3 amended: start rejects (returns false and issues no vendor
call, leaving the state unchanged) exactly when both the host video
handle and the host audio handle are absent; the uses_video / uses_audio
flags are not consulted by this rejection, so an instance whose flags
are both false still reaches send_create whenever some handle exists. -/
theorem claim_C3_amended (o : NdiOutput) (env : HostEnv)
    (hv : env.video = none) (ha : env.audio = none) :
    ndi_output_start o env = (false, o, []) := by
  unfold ndi_output_start
  by_cases hs : o.started
  · rw [if_pos hs]
  · rw [if_neg hs, if_pos ⟨hv, ha⟩]

theorem claim_C3_amended_witness :
    ndi_output_start (ndi_output_create ⟨"w", true, true⟩)
        ⟨none, none, true, true⟩
      = (false, ndi_output_create ⟨"w", true, true⟩, []) :=
  claim_C3_amended (ndi_output_create ⟨"w", true, true⟩)
    ⟨none, none, true, true⟩ rfl rfl

/-- Claim C4 fails on the code: frame_rate_N is computed by the C cast
(int)(framerate * 100), which truncates toward zero, not by rounding.
For framerate 1/64 the product is 1.5625: the code stores numerator 1
while round(framerate * 100) = 2. -/
theorem claim_C4_counterexample :
    runningLowFps.started = true ∧
    runningLowFps.video_framerate = (1 : ℚ)/64 ∧
    sentVideoRateN (ndi_output_rawvideo runningLowFps ⟨0, 4⟩).2 = some 1 ∧
    round (((1 : ℚ)/64) * 100) = 2 := by
  refine ⟨rfl, rfl, ?_, ?_⟩
  · show some (c_int_trunc (((1 : ℚ)/64) * 100)) = some 1
    have h : ((1 : ℚ)/64 * 100) = 25/16 := by norm_num
    rw [c_int_trunc, h, if_pos (by norm_num)]
    norm_num
  · have h : ((1 : ℚ)/64 * 100) = 25/16 := by norm_num
    rw [h, round_eq]
    norm_num

/-- Claim C4 amended: for every video frame sent while running, the
vendor descriptor's frame rate numerator is the C cast
(int)(framerate * 100) — truncation toward zero, which coincides with
rounding only when framerate*100 lands on or below the midpoint — and
the denominator is 100.  For framerate 29.97 the stored numerator is
2997 (the double-precision product 29.97*100 evaluates to exactly
2997.0, as does the exact-rational model). -/
theorem claim_C4_amended (o : NdiOutput) (frame : VideoData)
    (hs : o.started = true) (hw : o.frame_width ≠ 0) (hh : o.frame_height ≠ 0) :
    (∃ vf : VideoFrameDesc,
        (ndi_output_rawvideo o frame).2 = [VendorCall.sendVideo vf] ∧
        vf.frame_rate_N = c_int_trunc (o.video_framerate * 100) ∧
        vf.frame_rate_D = 100) ∧
    c_int_trunc ((2997 : ℚ)/100 * 100) = 2997 := by
  constructor
  · unfold ndi_output_rawvideo
    rw [if_neg (by simp [hs, hw, hh])]
    dsimp only
    split
    · exact ⟨_, rfl, rfl, rfl⟩
    · exact ⟨_, rfl, rfl, rfl⟩
  · have h : ((2997 : ℚ)/100 * 100) = 2997 := by norm_num
    rw [c_int_trunc, h, if_pos (by norm_num)]
    norm_num

theorem claim_C4_amended_witness :
    ((∃ vf : VideoFrameDesc,
        (ndi_output_rawvideo runningLowFps ⟨0, 4⟩).2 = [VendorCall.sendVideo vf] ∧
        vf.frame_rate_N = c_int_trunc (runningLowFps.video_framerate * 100) ∧
        vf.frame_rate_D = 100) ∧
      c_int_trunc ((2997 : ℚ)/100 * 100) = 2997) :=
  claim_C4_amended runningLowFps ⟨0, 4⟩ rfl (by decide) (by decide)

/-- Claim C5 fails on the code: ndi_output_stop zeroes frame_width,
frame_height, video_framerate, audio_channels and audio_samplerate, but
it never clears frame_fourcc or conv_linesize, so after stopping a
running I444 instance these two negotiated video state fields keep their
non-zero values (UYVY tag, width*2). -/
theorem claim_C5_counterexample :
    runningI444.started = true ∧
    (ndi_output_stop runningI444).1.frame_fourcc ≠ 0 ∧
    (ndi_output_stop runningI444).1.conv_linesize ≠ 0 := by
  refine ⟨rfl, ?_, ?_⟩ <;> decide

/-- Claim C5 amended: after stop() on a running instance the sender
handle is null, the video conversion scratch pointer is null, the width,
height and framerate of the negotiated video state and the sample rate
and channel count of the negotiated audio state are zero, and the audio
scratch buffer and its recorded capacity are unchanged; however the
negotiated fourCC tag and the conversion row stride are NOT cleared and
keep their pre-stop values (and the converter function pointer is
cleared only together with the scratch buffer). -/
theorem claim_C5_amended (o : NdiOutput) (hs : o.started = true) :
    (ndi_output_stop o).1.ndi_sender = false ∧
    (ndi_output_stop o).1.conv_buffer = none ∧
    (ndi_output_stop o).1.frame_width = 0 ∧
    (ndi_output_stop o).1.frame_height = 0 ∧
    (ndi_output_stop o).1.video_framerate = 0 ∧
    (ndi_output_stop o).1.audio_channels = 0 ∧
    (ndi_output_stop o).1.audio_samplerate = 0 ∧
    (ndi_output_stop o).1.audio_conv_buffer = o.audio_conv_buffer ∧
    (ndi_output_stop o).1.audio_conv_buffer_size = o.audio_conv_buffer_size ∧
    (ndi_output_stop o).1.frame_fourcc = o.frame_fourcc ∧
    (ndi_output_stop o).1.conv_linesize = o.conv_linesize := by
  unfold ndi_output_stop
  rw [if_neg (by simp [hs])]
  dsimp only
  split
  · exact ⟨rfl, rfl, rfl, rfl, rfl, rfl, rfl, rfl, rfl, rfl, rfl⟩
  · next hc =>
      refine ⟨rfl, ?_, rfl, rfl, rfl, rfl, rfl, rfl, rfl, rfl, rfl⟩
      simpa [Option.not_isSome_iff_eq_none] using hc

theorem claim_C5_amended_witness :
    (ndi_output_stop runningI444).1.ndi_sender = false ∧
    (ndi_output_stop runningI444).1.conv_buffer = none ∧
    (ndi_output_stop runningI444).1.frame_width = 0 ∧
    (ndi_output_stop runningI444).1.frame_height = 0 ∧
    (ndi_output_stop runningI444).1.video_framerate = 0 ∧
    (ndi_output_stop runningI444).1.audio_channels = 0 ∧
    (ndi_output_stop runningI444).1.audio_samplerate = 0 ∧
    (ndi_output_stop runningI444).1.audio_conv_buffer = runningI444.audio_conv_buffer ∧
    (ndi_output_stop runningI444).1.audio_conv_buffer_size = runningI444.audio_conv_buffer_size ∧
    (ndi_output_stop runningI444).1.frame_fourcc = runningI444.frame_fourcc ∧
    (ndi_output_stop runningI444).1.conv_linesize = runningI444.conv_linesize :=
  claim_C5_amended runningI444 rfl

/-- Claim C6: starting from construction (capacity 0), the audio scratch
capacity after the first k processed frames equals the maximum over
j < k of channels * 4 * frames_j; the capacity never decreases along the
sequence; and a further frame whose required size does not exceed the
current capacity triggers no reallocation (recorded capacity and
allocation size both unchanged). -/
theorem claim_C6 (o : NdiOutput) (fs : List AudioData) (k j : Nat) (f : AudioData)
    (hs : o.started = true) (hr : o.audio_samplerate ≠ 0)
    (hc : o.audio_channels ≠ 0)
    (h0 : o.audio_conv_buffer_size = 0)
    (hl : o.audio_conv_buffer.length = o.audio_conv_buffer_size)
    (hjk : j ≤ k) :
    (processAudio o (fs.take k)).audio_conv_buffer_size
      = ((fs.take k).map (fun g => o.audio_channels * 4 * g.frames)).foldl max 0 ∧
    (processAudio o (fs.take j)).audio_conv_buffer_size
      ≤ (processAudio o (fs.take k)).audio_conv_buffer_size ∧
    (o.audio_channels * 4 * f.frames
        ≤ (processAudio o (fs.take k)).audio_conv_buffer_size →
      (ndi_output_rawaudio (processAudio o (fs.take k)) f).1.audio_conv_buffer_size
        = (processAudio o (fs.take k)).audio_conv_buffer_size ∧
      (ndi_output_rawaudio (processAudio o (fs.take k)) f).1.audio_conv_buffer.length
        = (processAudio o (fs.take k)).audio_conv_buffer.length) := by
  have hfun : (fun g : AudioData => o.audio_channels * 4 * g.frames)
      = (fun g : AudioData => o.audio_channels * (g.frames * 4)) :=
    funext fun g => by ring
  have p1 : ∀ m : Nat, (processAudio o (fs.take m)).audio_conv_buffer_size
      = ((fs.take m).map (fun g => o.audio_channels * (g.frames * 4))).foldl max 0 := by
    intro m
    rw [processAudio_cap (fs.take m) o hs hr hc, h0]
  refine ⟨by rw [hfun, p1 k], ?_, ?_⟩
  · rw [p1 j, p1 k, show fs.take j = (fs.take k).take j from by
        rw [List.take_take, Nat.min_eq_left hjk],
      List.map_take]
    exact foldl_max_take_le _ j 0
  · intro hle
    have hP := processAudio_inv (fs.take k) o
    have hcap := rawaudio_cap (processAudio o (fs.take k)) f
      (hP.1.trans hs) (by rw [hP.2.1]; exact hr) (by rw [hP.2.2]; exact hc)
    have hle2 : (processAudio o (fs.take k)).audio_channels * (f.frames * 4)
        ≤ (processAudio o (fs.take k)).audio_conv_buffer_size := by
      rw [hP.2.2, show o.audio_channels * (f.frames * 4)
          = o.audio_channels * 4 * f.frames from by ring]
      exact hle
    have hsz : (ndi_output_rawaudio (processAudio o (fs.take k)) f).1.audio_conv_buffer_size
        = (processAudio o (fs.take k)).audio_conv_buffer_size := by
      rw [hcap]; exact Nat.max_eq_left hle2
    have hlenP := processAudio_leninv (fs.take k) o hl
    refine ⟨hsz, ?_⟩
    rw [rawaudio_len (processAudio o (fs.take k)) f hlenP, hsz, hlenP]

theorem claim_C6_witness :
    (processAudio startedAudioOnly (s4Frames.take 3)).audio_conv_buffer_size
      = ((s4Frames.take 3).map
          (fun g => startedAudioOnly.audio_channels * 4 * g.frames)).foldl max 0 ∧
    (processAudio startedAudioOnly (s4Frames.take 1)).audio_conv_buffer_size
      ≤ (processAudio startedAudioOnly (s4Frames.take 3)).audio_conv_buffer_size ∧
    (startedAudioOnly.audio_channels * 4 * 2
        ≤ (processAudio startedAudioOnly (s4Frames.take 3)).audio_conv_buffer_size →
      (ndi_output_rawaudio (processAudio startedAudioOnly (s4Frames.take 3))
          ⟨2, fun _ => List.replicate 8 0⟩).1.audio_conv_buffer_size
        = (processAudio startedAudioOnly (s4Frames.take 3)).audio_conv_buffer_size ∧
      (ndi_output_rawaudio (processAudio startedAudioOnly (s4Frames.take 3))
          ⟨2, fun _ => List.replicate 8 0⟩).1.audio_conv_buffer.length
        = (processAudio startedAudioOnly (s4Frames.take 3)).audio_conv_buffer.length) :=
  claim_C6 startedAudioOnly s4Frames 3 1 ⟨2, fun _ => List.replicate 8 0⟩
    rfl (by decide) (by decide) rfl rfl (by decide)

/-- Claim C7: for every raw_audio frame processed while running, after
the repack the output buffer bytes in [i*4F, (i+1)*4F) are exactly the
bytes of input channel i, for every channel index i; the sent vendor
descriptor's p_data is that repacked buffer. -/
theorem claim_C7 (o : NdiOutput) (f : AudioData) (i : Nat)
    (hs : o.started = true) (hr : o.audio_samplerate ≠ 0)
    (hc : o.audio_channels ≠ 0)
    (hl : o.audio_conv_buffer.length = o.audio_conv_buffer_size)
    (hi : i < o.audio_channels)
    (hd : ∀ j, j < o.audio_channels → (f.data j).length = f.frames * 4) :
    ∃ af : AudioFrameDesc,
      (ndi_output_rawaudio o f).2 = [VendorCall.sendAudio af] ∧
      af.p_data = (ndi_output_rawaudio o f).1.audio_conv_buffer ∧
      (af.p_data.drop (i * (4 * f.frames))).take (4 * f.frames) = f.data i := by
  have hregion : ∀ b0 : List Nat,
      o.audio_channels * (f.frames * 4) ≤ b0.length →
      ((((List.range o.audio_channels).foldl
          (fun b i2 => writeRange b (i2 * (f.frames * 4))
            ((f.data i2).take (f.frames * 4)))
          b0).drop (i * (f.frames * 4))).take (f.frames * 4)) = f.data i := by
    intro b0 hb0
    rw [List.range_eq_range',
      fold_writeRange_join f.data (f.frames * 4) o.audio_channels 0 b0
        (by rw [show (0 + o.audio_channels) * (f.frames * 4)
              = o.audio_channels * (f.frames * 4) from by ring]
            exact hb0)
        (fun j hj1 hj2 => by rw [List.length_take, hd j (by omega)]; omega)]
    rw [Nat.zero_mul, List.take_zero, List.nil_append]
    have hilen : i < ((List.range' 0 o.audio_channels).map
        (fun j => (f.data j).take (f.frames * 4))).length := by
      simpa using hi
    have hlen : ∀ l ∈ (List.range' 0 o.audio_channels).map
        (fun j => (f.data j).take (f.frames * 4)), l.length = f.frames * 4 := by
      intro l hmem
      rw [List.mem_map] at hmem
      obtain ⟨j, hj, rfl⟩ := hmem
      have := List.mem_range'_1.mp hj
      rw [List.length_take, hd j (by omega)]
      omega
    rw [flatten_region (f.frames * 4) _ _ i hilen hlen]
    rw [List.get_eq_getElem, List.getElem_map, List.getElem_range']
    simp only [Nat.zero_add, Nat.one_mul]
    show (f.data i).take (f.frames * 4) = f.data i
    exact List.take_of_length_le (le_of_eq (hd i hi))
  unfold ndi_output_rawaudio
  rw [if_neg (by simp [hs, hr, hc])]
  dsimp only
  split
  · next h =>
      refine ⟨_, rfl, rfl, ?_⟩
      rw [show i * (4 * f.frames) = i * (f.frames * 4) from by ring,
          show 4 * f.frames = f.frames * 4 from by ring]
      exact hregion (List.replicate (o.audio_channels * (f.frames * 4)) 0)
        (by rw [List.length_replicate])
  · next h =>
      refine ⟨_, rfl, rfl, ?_⟩
      rw [show i * (4 * f.frames) = i * (f.frames * 4) from by ring,
          show 4 * f.frames = f.frames * 4 from by ring]
      exact hregion o.audio_conv_buffer (by rw [hl]; omega)

theorem claim_C7_witness :
    ∃ af : AudioFrameDesc,
      (ndi_output_rawaudio startedAudioOnly stereoFrame).2
        = [VendorCall.sendAudio af] ∧
      af.p_data = (ndi_output_rawaudio startedAudioOnly stereoFrame).1.audio_conv_buffer ∧
      (af.p_data.drop (1 * (4 * stereoFrame.frames))).take (4 * stereoFrame.frames)
        = stereoFrame.data 1 :=
  claim_C7 startedAudioOnly stereoFrame 1 rfl (by decide) (by decide) rfl
    (by decide) (by decide)

/-- Claim C8: a raw_video or raw_audio callback invoked on an instance
whose started flag is false issues zero vendor send calls and leaves the
instance state unchanged. -/
theorem claim_C8 (o : NdiOutput) (vframe : VideoData) (aframe : AudioData)
    (hs : o.started = false) :
    ndi_output_rawvideo o vframe = (o, []) ∧
    ndi_output_rawaudio o aframe = (o, []) := by
  constructor
  · unfold ndi_output_rawvideo
    rw [if_pos (Or.inl hs)]
  · unfold ndi_output_rawaudio
    rw [if_pos (Or.inl hs)]

theorem claim_C8_witness :
    ndi_output_rawvideo zeroNdiOutput ⟨0, 4⟩ = (zeroNdiOutput, []) ∧
    ndi_output_rawaudio zeroNdiOutput ⟨4, fun _ => []⟩ = (zeroNdiOutput, []) :=
  claim_C8 zeroNdiOutput ⟨0, 4⟩ ⟨4, fun _ => []⟩ rfl

/-- Claim C9 fails on the code: with all strides 5 (odd effective
width 5) and one row, the loop runs 3 full iterations (12 stores, so the
trailing pixel x = 4 IS emitted as part of a full pair), and the last
store of the pair reads the luma sample at index 5 = effective width:
two inputs that differ only in that out-of-width luma byte produce
different outputs (they differ in the store at offset 11). -/
theorem claim_C9_counterexample :
    convert_i444_to_uyvy inputZero strides5 0 1 5
      ≠ convert_i444_to_uyvy inputLumaAt5 strides5 0 1 5 ∧
    (11, 7) ∈ convert_i444_to_uyvy inputLumaAt5 strides5 0 1 5 := by
  decide

/-- Claim C9 amended: when the effective width w = min(in_stride0,
out_stride) is odd, the converter still emits no partial UYVY pair, but
it does NOT drop the trailing pixel: the final loop iteration
p = (w-1)/2 emits a full four-byte pair whose second luma byte is read
from index w — one sample past the effective width — and the row
performs 4 * ceil(w/2) stores. -/
theorem claim_C9_amended (input : Fin 3 → Nat → Nat) (ls : Fin 3 → Nat)
    (start_y end_y out y w : Nat)
    (hw : w = min_uint32 (ls 0) out) (hodd : w % 2 = 1)
    (hy1 : start_y ≤ y) (hy2 : y < end_y) :
    (∃ l1 l2, convert_i444_to_uyvy input ls start_y end_y out =
      l1 ++ [(y * out + 4 * ((w - 1) / 2),     input 1 (y * ls 1 + 2 * ((w - 1) / 2))),
             (y * out + 4 * ((w - 1) / 2) + 1, input 0 (y * ls 0 + 2 * ((w - 1) / 2))),
             (y * out + 4 * ((w - 1) / 2) + 2, input 2 (y * ls 2 + 2 * ((w - 1) / 2))),
             (y * out + 4 * ((w - 1) / 2) + 3, input 0 (y * ls 0 + w))] ++ l2) ∧
    (convert_i444_to_uyvy input ls y (y + 1) out).length = 4 * ((w + 1) / 2) := by
  constructor
  · rw [show y * ls 0 + w = y * ls 0 + 2 * ((w - 1) / 2) + 1 from by omega]
    exact convert_pair_split input ls start_y end_y out y ((w - 1) / 2) hy1 hy2
      (by rw [← hw]; omega)
  · rw [convert_row_length input ls out y, ← hw]

theorem claim_C9_amended_witness :
    (∃ l1 l2, convert_i444_to_uyvy inputZero strides5 0 1 5 =
      l1 ++ [(0 * 5 + 4 * ((5 - 1) / 2),     inputZero 1 (0 * strides5 1 + 2 * ((5 - 1) / 2))),
             (0 * 5 + 4 * ((5 - 1) / 2) + 1, inputZero 0 (0 * strides5 0 + 2 * ((5 - 1) / 2))),
             (0 * 5 + 4 * ((5 - 1) / 2) + 2, inputZero 2 (0 * strides5 2 + 2 * ((5 - 1) / 2))),
             (0 * 5 + 4 * ((5 - 1) / 2) + 3, inputZero 0 (0 * strides5 0 + 5))] ++ l2) ∧
    (convert_i444_to_uyvy inputZero strides5 0 (0 + 1) 5).length = 4 * ((5 + 1) / 2) :=
  claim_C9_amended inputZero strides5 0 1 5 0 5 (by decide) (by decide)
    (by decide) (by decide)

/-- Claim C10: while started is true, raw_video drops the frame (no
vendor send, state unchanged) when the negotiated width or height is
zero, and raw_audio drops the frame when the negotiated sample rate or
channel count is zero. -/
theorem claim_C10 (o : NdiOutput) (vframe : VideoData) (aframe : AudioData)
    (_hs : o.started = true) :
    (o.frame_width = 0 ∨ o.frame_height = 0 →
      ndi_output_rawvideo o vframe = (o, [])) ∧
    (o.audio_samplerate = 0 ∨ o.audio_channels = 0 →
      ndi_output_rawaudio o aframe = (o, [])) := by
  constructor
  · intro h
    unfold ndi_output_rawvideo
    rw [if_pos (Or.inr h)]
  · intro h
    unfold ndi_output_rawaudio
    rw [if_pos (Or.inr h)]

theorem claim_C10_witness :
    (startedAudioOnly.frame_width = 0 ∨ startedAudioOnly.frame_height = 0 →
      ndi_output_rawvideo startedAudioOnly ⟨0, 4⟩ = (startedAudioOnly, [])) ∧
    (startedAudioOnly.audio_samplerate = 0 ∨ startedAudioOnly.audio_channels = 0 →
      ndi_output_rawaudio startedAudioOnly ⟨4, fun _ => []⟩ = (startedAudioOnly, [])) :=
  claim_C10 startedAudioOnly ⟨0, 4⟩ ⟨4, fun _ => []⟩ rfl
